import Mathlib

/-!
Shallow embedding of the method tracer in `runtime/trace.cc` (namespace `art`).
Machine integers are modelled as `Nat` with explicit `% 2 ^ w` truncation where
the C++ code narrows; pointers are modelled as the `Nat` value obtained by
`reinterpret_cast<uint32_t>`.
-/

namespace art

/-- Clock source for the profiler, `ProfilerClockSource` in the source. -/
inductive ProfilerClockSource where
  | wall
  | threadCpu
  | dual
deriving DecidableEq

/-- Trace actions stored in the low two bits of a packed method word
(enum `TraceAction` in `trace.cc`). -/
inductive TraceAction where
  | kTraceMethodEnter
  | kTraceMethodExit
  | kTraceUnroll
deriving DecidableEq

/-- Numeric value of a `TraceAction` (`0x00`, `0x01`, `0x02` in the source). -/
def TraceAction.toNat : TraceAction → Nat
  | .kTraceMethodEnter => 0
  | .kTraceMethodExit => 1
  | .kTraceUnroll => 2

def kTraceMethodActionMask : Nat := 3

def kTraceHeaderLength : Nat := 32

def kTraceMagicValue : Nat := 0x574f4c53

def kTraceVersionSingleClock : Nat := 2

def kTraceVersionDualClock : Nat := 3

def kTraceRecordSizeSingleClock : Nat := 10

def kTraceRecordSizeDualClock : Nat := 14

/-- Modelled from the spec: the `count_allocs` bit of the `flags` bitset.  Its
numeric value lives in `trace.h`, which is not part of the sources here; the
spec describes it as a single flag bit, modelled as the least significant bit. -/
def kTraceCountAllocs : Nat := 1

/-- `DecodeTraceMethodId`: `tmid & ~kTraceMethodActionMask` on `uint32_t`,
where the complement of the mask on 32 bits is `2 ^ 32 - 1 - 3`. -/
def DecodeTraceMethodId (tmid : Nat) : Nat :=
  tmid &&& (2 ^ 32 - 1 - kTraceMethodActionMask)

/-- `DecodeTraceAction`: `tmid & kTraceMethodActionMask`. -/
def DecodeTraceAction (tmid : Nat) : Nat :=
  tmid &&& kTraceMethodActionMask

/-- `EncodeTraceMethodAndAction`: `reinterpret_cast<uint32_t>(method) | action`. -/
def EncodeTraceMethodAndAction (method : Nat) (action : Nat) : Nat :=
  method ||| action

/-- `GetTraceVersion`: 3 for the dual clock source, 2 otherwise. -/
def GetTraceVersion (clock_source : ProfilerClockSource) : Nat :=
  if clock_source = ProfilerClockSource.dual then kTraceVersionDualClock
  else kTraceVersionSingleClock

/-- `GetRecordSize`: 14 bytes for the dual clock source, 10 otherwise. -/
def GetRecordSize (clock_source : ProfilerClockSource) : Nat :=
  if clock_source = ProfilerClockSource.dual then kTraceRecordSizeDualClock
  else kTraceRecordSizeSingleClock

/-- `Trace::UseThreadCpuClock`. -/
def UseThreadCpuClock (clock_source : ProfilerClockSource) : Bool :=
  clock_source = ProfilerClockSource.threadCpu ∨ clock_source = ProfilerClockSource.dual

/-- `Trace::UseWallClock`. -/
def UseWallClock (clock_source : ProfilerClockSource) : Bool :=
  clock_source = ProfilerClockSource.wall ∨ clock_source = ProfilerClockSource.dual

/-- One byte store `*buf = (uint8_t) v` at offset `off` of a byte buffer
modelled as a function from offsets to byte values. -/
def writeByte (buf : Nat → Nat) (off v : Nat) : Nat → Nat :=
  fun i => if i = off then v % 256 else buf i

/-- `Append2LE`: write a 16-bit value little-endian, one byte store at a time. -/
def Append2LE (buf : Nat → Nat) (off val : Nat) : Nat → Nat :=
  writeByte (writeByte buf off val) (off + 1) (val >>> 8)

/-- `Append4LE`: write a 32-bit value little-endian. -/
def Append4LE (buf : Nat → Nat) (off val : Nat) : Nat → Nat :=
  writeByte (writeByte (writeByte (writeByte buf off val)
    (off + 1) (val >>> 8)) (off + 2) (val >>> 16)) (off + 3) (val >>> 24)

/-- `Append8LE`: write a 64-bit value little-endian. -/
def Append8LE (buf : Nat → Nat) (off val : Nat) : Nat → Nat :=
  writeByte (writeByte (writeByte (writeByte (writeByte (writeByte (writeByte
    (writeByte buf off val)
    (off + 1) (val >>> 8)) (off + 2) (val >>> 16)) (off + 3) (val >>> 24))
    (off + 4) (val >>> 32)) (off + 5) (val >>> 40)) (off + 6) (val >>> 48))
    (off + 7) (val >>> 56)

/-- Little-endian read of 2 bytes, the inverse direction of `Append2LE`. -/
def parse2LE (buf : Nat → Nat) (off : Nat) : Nat :=
  buf off + 256 * buf (off + 1)

/-- Little-endian read of 4 bytes. -/
def parse4LE (buf : Nat → Nat) (off : Nat) : Nat :=
  parse2LE buf off + 65536 * parse2LE buf (off + 2)

/-- Little-endian read of 8 bytes. -/
def parse8LE (buf : Nat → Nat) (off : Nat) : Nat :=
  parse4LE buf off + 4294967296 * parse4LE buf (off + 4)

/-- State of one tracing session: the fields of class `Trace` that the traced
behaviour depends on.  `buf` maps byte offsets to byte values,
`thread_clock_base_map` is the `SafeMap<Thread*, uint64_t>` as an association
list keyed by thread identity. -/
structure TraceState where
  clock_source : ProfilerClockSource
  buffer_size : Nat
  flags : Nat
  start_time : Nat
  buf : Nat → Nat
  cur_offset : Nat
  overflow : Bool
  thread_clock_base_map : List (Nat × Nat)

/-- Header bytes written by the `Trace::Trace` constructor: the buffer comes
zero-initialised (`new uint8_t[buffer_size]()` plus the `memset`), then magic,
version, offset-to-data, start time, and for dual-clock versions the record
size, are appended little-endian. -/
def TraceCtorBuf (clock_source : ProfilerClockSource) (start_time : Nat) :
    Nat → Nat :=
  let b0 : Nat → Nat := fun _ => 0
  let b1 := Append4LE b0 0 kTraceMagicValue
  let b2 := Append2LE b1 4 (GetTraceVersion clock_source)
  let b3 := Append2LE b2 6 kTraceHeaderLength
  let b4 := Append8LE b3 8 start_time
  if kTraceVersionDualClock ≤ GetTraceVersion clock_source then
    Append2LE b4 16 (GetRecordSize clock_source)
  else b4

/-- `Trace::Trace`: builds the header and sets `cur_offset_` to
`kTraceHeaderLength`. -/
def TraceCtor (clock_source : ProfilerClockSource)
    (buffer_size flags start_time : Nat) : TraceState :=
  { clock_source := clock_source
    buffer_size := buffer_size
    flags := flags
    start_time := start_time
    buf := TraceCtorBuf clock_source start_time
    cur_offset := kTraceHeaderLength
    overflow := false
    thread_clock_base_map := [] }

/-- Wrapping subtraction of `uint64_t` values, as in `a - b` on `uint64_t`. -/
def u64sub (a b : Nat) : Nat :=
  (a + 2 ^ 64 - b % 2 ^ 64) % 2 ^ 64

/-- The three instrumentation events the tracer listens to. -/
inductive InstrumentationEvent where
  | kMethodEntered
  | kMethodExited
  | kMethodUnwind
deriving DecidableEq

/-- The `switch (event)` of `Trace::LogMethodTraceEvent` translating an
instrumentation event into a `TraceAction`. -/
def eventToAction : InstrumentationEvent → TraceAction
  | .kMethodEntered => .kTraceMethodEnter
  | .kMethodExited => .kTraceMethodExit
  | .kMethodUnwind => .kTraceUnroll

/-- One call to `Trace::LogMethodTraceEvent`: the calling thread (identified by
its tid, which also keys `thread_clock_base_map`), the method pointer value,
the event, and the values the two clocks would read during this call. -/
structure LogInput where
  thread : Nat
  method : Nat
  event : InstrumentationEvent
  cpuNow : Nat
  wallNow : Nat
deriving DecidableEq

/-- `Trace::LogMethodTraceEvent`, sequentialised: the compare-and-swap loop
reserves `[old_offset, old_offset + record_size)` or, when the new offset would
exceed `buffer_size_`, sets `overflow_` and returns; on success the record is
encoded at the reserved offset and, for CPU clocks, the per-thread clock base
is consulted and possibly inserted. -/
def LogMethodTraceEvent (s : TraceState) (e : LogInput) : TraceState :=
  if s.buffer_size < s.cur_offset + GetRecordSize s.clock_source then
    { s with overflow := true }
  else
    let old_offset := s.cur_offset
    let new_offset := old_offset + GetRecordSize s.clock_source
    let method_value :=
      EncodeTraceMethodAndAction e.method (eventToAction e.event).toNat
    let written :=
      Append4LE (Append2LE s.buf old_offset e.thread) (old_offset + 2)
        method_value
    let afterCpu : (Nat → Nat) × List (Nat × Nat) × Nat :=
      if UseThreadCpuClock s.clock_source then
        match List.lookup e.thread s.thread_clock_base_map with
        | none =>
            (Append4LE written (old_offset + 6) 0,
             (e.thread, e.cpuNow) :: s.thread_clock_base_map,
             old_offset + 10)
        | some thread_clock_base =>
            (Append4LE written (old_offset + 6)
               (u64sub e.cpuNow thread_clock_base % 2 ^ 32),
             s.thread_clock_base_map,
             old_offset + 10)
      else (written, s.thread_clock_base_map, old_offset + 6)
    let final_buf :=
      if UseWallClock s.clock_source then
        Append4LE afterCpu.1 afterCpu.2.2 (u64sub e.wallNow s.start_time % 2 ^ 32)
      else afterCpu.1
    { s with cur_offset := new_offset, buf := final_buf,
             thread_clock_base_map := afterCpu.2.1 }

/-- Run a sequence of `LogMethodTraceEvent` calls. -/
def runLogs (s : TraceState) (evs : List LogInput) : TraceState :=
  evs.foldl LogMethodTraceEvent s

/-- Whether the atomic reservation in `LogMethodTraceEvent` succeeds in state
`s` (the negation of the `new_offset > buffer_size_` overflow test). -/
def reserveOk (s : TraceState) : Bool :=
  decide (s.cur_offset + GetRecordSize s.clock_source ≤ s.buffer_size)

/-- Number of calls in a run whose reservation succeeds. -/
def countSuccess (s : TraceState) : List LogInput → Nat
  | [] => 0
  | e :: evs =>
      (if reserveOk s then 1 else 0) + countSuccess (LogMethodTraceEvent s e) evs

/-- The `num-method-calls` value computed by `Trace::FinishTracing`:
`(final_offset - kTraceHeaderLength) / GetRecordSize(clock_source_)`. -/
def FinishNumRecords (s : TraceState) : Nat :=
  (s.cur_offset - kTraceHeaderLength) / GetRecordSize s.clock_source

/-- The `data-file-overflow` preamble line emitted by `Trace::FinishTracing`. -/
def dataFileOverflowLine (s : TraceState) : String :=
  "data-file-overflow=" ++ (if s.overflow then "true" else "false") ++ "\n"

/-- The runtime-global state that `Trace::Start` manipulates: the `the_trace_`
singleton slot, the count of listeners registered with the instrumentation
collaborator, and the runtime allocation-statistics switch. -/
structure RuntimeState where
  the_trace : Option TraceState
  listener_count : Nat
  stats_enabled : Bool

/-- `Trace::Start`, sequentialised.  The first `trace_lock` check returns when
a trace is already running; opening the trace file can fail (modelled by
`trace_file_ok`) unless going directly to ddms; otherwise the `Trace` object is
constructed and stored, alloc stats are enabled when
`(flags && kTraceCountAllocs) != 0` — the source's logical-and, true exactly
when both `flags` and `kTraceCountAllocs` are nonzero — and the listener is
registered. -/
def Trace_Start (g : RuntimeState) (clock_source : ProfilerClockSource)
    (buffer_size flags start_time : Nat) (trace_file_ok direct_to_ddms : Bool) :
    RuntimeState :=
  match g.the_trace with
  | some _ => g
  | none =>
      if !direct_to_ddms && !trace_file_ok then g
      else
        { the_trace := some (TraceCtor clock_source buffer_size flags start_time)
          listener_count := g.listener_count + 1
          stats_enabled :=
            if flags ≠ 0 ∧ kTraceCountAllocs ≠ 0 then true else g.stats_enabled }

/-- Number of clock reads performed by one `MeasureClockOverhead` call: one
per enabled clock. -/
def MeasureClockOverheadReads (clock_source : ProfilerClockSource) : Nat :=
  (if UseThreadCpuClock clock_source then 1 else 0) +
    (if UseWallClock clock_source then 1 else 0)

/-- The loop of `GetClockOverhead`: `n` passes of 8 `MeasureClockOverhead`
calls each; returns the total number of calls. -/
def GetClockOverheadLoopCalls : Nat → Nat
  | 0 => 0
  | n + 1 => GetClockOverheadLoopCalls n + 8

/-- The value returned by `GetClockOverhead` given the thread-CPU clock values
read before and after the loop: `uint32_t(elapsed / 32)`. -/
def GetClockOverhead (startCpu endCpu : Nat) : Nat :=
  u64sub endCpu startCpu / 32 % 2 ^ 32

@[simp] lemma GetTraceVersion_wall :
    GetTraceVersion ProfilerClockSource.wall = 2 := rfl

@[simp] lemma GetTraceVersion_threadCpu :
    GetTraceVersion ProfilerClockSource.threadCpu = 2 := rfl

@[simp] lemma GetTraceVersion_dual :
    GetTraceVersion ProfilerClockSource.dual = 3 := rfl

@[simp] lemma GetRecordSize_wall :
    GetRecordSize ProfilerClockSource.wall = 10 := rfl

@[simp] lemma GetRecordSize_threadCpu :
    GetRecordSize ProfilerClockSource.threadCpu = 10 := rfl

@[simp] lemma GetRecordSize_dual :
    GetRecordSize ProfilerClockSource.dual = 14 := rfl

@[simp] lemma UseThreadCpuClock_wall :
    UseThreadCpuClock ProfilerClockSource.wall = false := rfl

@[simp] lemma UseThreadCpuClock_threadCpu :
    UseThreadCpuClock ProfilerClockSource.threadCpu = true := rfl

@[simp] lemma UseThreadCpuClock_dual :
    UseThreadCpuClock ProfilerClockSource.dual = true := rfl

@[simp] lemma UseWallClock_wall :
    UseWallClock ProfilerClockSource.wall = true := rfl

@[simp] lemma UseWallClock_threadCpu :
    UseWallClock ProfilerClockSource.threadCpu = false := rfl

@[simp] lemma UseWallClock_dual :
    UseWallClock ProfilerClockSource.dual = true := rfl

lemma writeByte_same (buf : Nat → Nat) (off v : Nat) :
    writeByte buf off v off = v % 256 := by
  simp [writeByte]

lemma writeByte_other (buf : Nat → Nat) (off v i : Nat) (h : i ≠ off) :
    writeByte buf off v i = buf i := by
  simp [writeByte, h]

/-- Bytes outside the 4-byte window of an `Append4LE` are untouched. -/
lemma Append4LE_out (buf : Nat → Nat) (off v i : Nat)
    (h : i < off ∨ off + 4 ≤ i) : Append4LE buf off v i = buf i := by
  unfold Append4LE
  rw [writeByte_other _ _ _ _ (by omega), writeByte_other _ _ _ _ (by omega),
    writeByte_other _ _ _ _ (by omega), writeByte_other _ _ _ _ (by omega)]

/-- Bytes outside the 2-byte window of an `Append2LE` are untouched. -/
lemma Append2LE_out (buf : Nat → Nat) (off v i : Nat)
    (h : i < off ∨ off + 2 ≤ i) : Append2LE buf off v i = buf i := by
  unfold Append2LE
  rw [writeByte_other _ _ _ _ (by omega), writeByte_other _ _ _ _ (by omega)]

/-- Reading back the 4 bytes written by `Append4LE` yields the value modulo
`2 ^ 32`. -/
lemma parse4LE_Append4LE (buf : Nat → Nat) (off v : Nat) :
    parse4LE (Append4LE buf off v) off = v % 2 ^ 32 := by
  unfold parse4LE parse2LE Append4LE writeByte
  simp only [Nat.shiftRight_eq_div_pow]
  split_ifs <;> omega

/-- A later `Append4LE` outside the read window does not change a 4-byte read. -/
lemma parse4LE_Append4LE_out (buf : Nat → Nat) (off v p : Nat)
    (h : p + 4 ≤ off ∨ off + 4 ≤ p) :
    parse4LE (Append4LE buf off v) p = parse4LE buf p := by
  unfold parse4LE parse2LE
  rw [Append4LE_out _ _ _ _ (by omega), Append4LE_out _ _ _ _ (by omega),
    Append4LE_out _ _ _ _ (by omega), Append4LE_out _ _ _ _ (by omega)]

/-- A later `Append2LE` outside the read window does not change a 4-byte read. -/
lemma parse4LE_Append2LE_out (buf : Nat → Nat) (off v p : Nat)
    (h : p + 4 ≤ off ∨ off + 2 ≤ p) :
    parse4LE (Append2LE buf off v) p = parse4LE buf p := by
  unfold parse4LE parse2LE
  rw [Append2LE_out _ _ _ _ (by omega), Append2LE_out _ _ _ _ (by omega),
    Append2LE_out _ _ _ _ (by omega), Append2LE_out _ _ _ _ (by omega)]

/-- Bytes outside the 8-byte window of an `Append8LE` are untouched. -/
lemma Append8LE_out (buf : Nat → Nat) (off v i : Nat)
    (h : i < off ∨ off + 8 ≤ i) : Append8LE buf off v i = buf i := by
  unfold Append8LE
  rw [writeByte_other _ _ _ _ (by omega), writeByte_other _ _ _ _ (by omega),
    writeByte_other _ _ _ _ (by omega), writeByte_other _ _ _ _ (by omega),
    writeByte_other _ _ _ _ (by omega), writeByte_other _ _ _ _ (by omega),
    writeByte_other _ _ _ _ (by omega), writeByte_other _ _ _ _ (by omega)]

/-- An 8-byte store is two 4-byte stores of the low and high halves. -/
lemma Append8LE_eq (buf : Nat → Nat) (off v : Nat) :
    Append8LE buf off v = Append4LE (Append4LE buf off v) (off + 4) (v >>> 32) := by
  have h40 : v >>> 40 = v >>> 32 >>> 8 := by rw [← Nat.shiftRight_add]
  have h48 : v >>> 48 = v >>> 32 >>> 16 := by rw [← Nat.shiftRight_add]
  have h56 : v >>> 56 = v >>> 32 >>> 24 := by rw [← Nat.shiftRight_add]
  have h5 : off + 4 + 1 = off + 5 := by omega
  have h6 : off + 4 + 2 = off + 6 := by omega
  have h7 : off + 4 + 3 = off + 7 := by omega
  unfold Append8LE Append4LE
  rw [h40, h48, h56, h5, h6, h7]

/-- Reading back the 2 bytes written by `Append2LE` yields the value modulo
`2 ^ 16`. -/
lemma parse2LE_Append2LE (buf : Nat → Nat) (off v : Nat) :
    parse2LE (Append2LE buf off v) off = v % 2 ^ 16 := by
  unfold parse2LE Append2LE writeByte
  simp only [Nat.shiftRight_eq_div_pow]
  split_ifs <;> omega

/-- A later `Append2LE` outside the read window does not change a 2-byte read. -/
lemma parse2LE_Append2LE_out (buf : Nat → Nat) (off v p : Nat)
    (h : p + 2 ≤ off ∨ off + 2 ≤ p) :
    parse2LE (Append2LE buf off v) p = parse2LE buf p := by
  unfold parse2LE
  rw [Append2LE_out _ _ _ _ (by omega), Append2LE_out _ _ _ _ (by omega)]

/-- A later `Append4LE` outside the read window does not change a 2-byte read. -/
lemma parse2LE_Append4LE_out (buf : Nat → Nat) (off v p : Nat)
    (h : p + 2 ≤ off ∨ off + 4 ≤ p) :
    parse2LE (Append4LE buf off v) p = parse2LE buf p := by
  unfold parse2LE
  rw [Append4LE_out _ _ _ _ (by omega), Append4LE_out _ _ _ _ (by omega)]

/-- A later `Append8LE` outside the read window does not change a 2-byte read. -/
lemma parse2LE_Append8LE_out (buf : Nat → Nat) (off v p : Nat)
    (h : p + 2 ≤ off ∨ off + 8 ≤ p) :
    parse2LE (Append8LE buf off v) p = parse2LE buf p := by
  unfold parse2LE
  rw [Append8LE_out _ _ _ _ (by omega), Append8LE_out _ _ _ _ (by omega)]

/-- A later `Append8LE` outside the read window does not change a 4-byte read. -/
lemma parse4LE_Append8LE_out (buf : Nat → Nat) (off v p : Nat)
    (h : p + 4 ≤ off ∨ off + 8 ≤ p) :
    parse4LE (Append8LE buf off v) p = parse4LE buf p := by
  unfold parse4LE
  rw [parse2LE_Append8LE_out _ _ _ _ (by omega),
    parse2LE_Append8LE_out _ _ _ _ (by omega)]

/-- A later `Append2LE` outside the read window does not change an 8-byte read. -/
lemma parse8LE_Append2LE_out (buf : Nat → Nat) (off v p : Nat)
    (h : p + 8 ≤ off ∨ off + 2 ≤ p) :
    parse8LE (Append2LE buf off v) p = parse8LE buf p := by
  unfold parse8LE
  rw [parse4LE_Append2LE_out _ _ _ _ (by omega),
    parse4LE_Append2LE_out _ _ _ _ (by omega)]

/-- Reading back the 8 bytes written by `Append8LE` yields the value modulo
`2 ^ 64`. -/
lemma parse8LE_Append8LE (buf : Nat → Nat) (off v : Nat) :
    parse8LE (Append8LE buf off v) off = v % 2 ^ 64 := by
  unfold parse8LE
  rw [Append8LE_eq, parse4LE_Append4LE,
    parse4LE_Append4LE_out _ _ _ _ (by omega), parse4LE_Append4LE]
  simp only [Nat.shiftRight_eq_div_pow]
  omega

/-- Unfolding of the header bytes for the wall clock source (version 2, no
record-size field). -/
lemma TraceCtorBuf_wall (st : Nat) :
    TraceCtorBuf ProfilerClockSource.wall st =
      Append8LE (Append2LE (Append2LE (Append4LE (fun _ => 0) 0
        kTraceMagicValue) 4 2) 6 32) 8 st := rfl

/-- Unfolding of the header bytes for the thread-cpu clock source (version 2,
no record-size field). -/
lemma TraceCtorBuf_threadCpu (st : Nat) :
    TraceCtorBuf ProfilerClockSource.threadCpu st =
      Append8LE (Append2LE (Append2LE (Append4LE (fun _ => 0) 0
        kTraceMagicValue) 4 2) 6 32) 8 st := rfl

/-- Unfolding of the header bytes for the dual clock source (version 3, with
the record size at offset 16). -/
lemma TraceCtorBuf_dual (st : Nat) :
    TraceCtorBuf ProfilerClockSource.dual st =
      Append2LE (Append8LE (Append2LE (Append2LE (Append4LE (fun _ => 0) 0
        kTraceMagicValue) 4 3) 6 32) 8 st) 16 14 := rfl

/-- Disjointness of the packed fields: a 4-byte aligned word or-ed with a value
below 4 is plain addition. -/
lemma or_eq_add_of_aligned {m a : Nat} (h4 : m % 4 = 0) (ha : a < 4) :
    m ||| a = m + a := by
  have hm : 2 ^ 2 * (m / 4) = m := by omega
  calc m ||| a = 2 ^ 2 * (m / 4) ||| a := by rw [hm]
    _ = 2 ^ 2 * (m / 4) + a := (Nat.mul_add_lt_is_or ha _).symm
    _ = m + a := by rw [hm]

/-- Masking with the complemented action mask recovers a 4-byte aligned method
word from the packed value. -/
lemma and_mask_of_aligned {m a : Nat} (hm : m < 2 ^ 32) (h4 : m % 4 = 0)
    (ha : a < 4) : (m + a) &&& (2 ^ 32 - 4) = m := by
  have hsplit : 2 ^ 32 - 4 = 2 ^ 2 * (2 ^ 30 - 1) := by norm_num
  have hmeq : 2 ^ 2 * (m / 4) = m := by omega
  have hq : m / 4 < 2 ^ 30 := by omega
  apply Nat.eq_of_testBit_eq
  intro j
  rw [Nat.testBit_and, hsplit, Nat.testBit_mul_pow_two, ← hmeq,
    Nat.testBit_mul_pow_two_add _ ha, Nat.testBit_mul_pow_two]
  by_cases hj : j < 2
  · simp [hj, Nat.not_le_of_lt hj]
  · have hj2 : 2 ≤ j := Nat.le_of_not_lt hj
    have h30 : (1073741823 : Nat) = 2 ^ 30 - 1 := by norm_num
    by_cases hj30 : j - 2 < 30
    · have hb : Nat.testBit 1073741823 (j - 2) = true := by
        rw [h30, Nat.testBit_two_pow_sub_one]; simp [hj30]
      simp [hj, hj2, hb]
    · have hb : Nat.testBit 1073741823 (j - 2) = false := by
        rw [h30, Nat.testBit_two_pow_sub_one]; simp [hj30]
      have hhigh : m / 4 < 2 ^ (j - 2) :=
        lt_of_lt_of_le hq (Nat.pow_le_pow_right (by norm_num) (Nat.le_of_not_lt hj30))
      simp [hj, hj2, hb, Nat.testBit_lt_two_pow hhigh]

/-- A failed reservation only sets the overflow flag. -/
lemma log_fail (s : TraceState) (e : LogInput)
    (h : s.buffer_size < s.cur_offset + GetRecordSize s.clock_source) :
    LogMethodTraceEvent s e = { s with overflow := true } := by
  unfold LogMethodTraceEvent
  rw [if_pos h]

/-- A successful reservation advances the cursor by the record size and leaves
the configuration fields and the overflow flag unchanged. -/
lemma log_succ_fields (s : TraceState) (e : LogInput)
    (h : s.cur_offset + GetRecordSize s.clock_source ≤ s.buffer_size) :
    (LogMethodTraceEvent s e).cur_offset =
      s.cur_offset + GetRecordSize s.clock_source ∧
    (LogMethodTraceEvent s e).overflow = s.overflow := by
  unfold LogMethodTraceEvent
  rw [if_neg (by omega)]
  exact ⟨rfl, rfl⟩

lemma log_clock_source (s : TraceState) (e : LogInput) :
    (LogMethodTraceEvent s e).clock_source = s.clock_source := by
  unfold LogMethodTraceEvent
  split <;> rfl

lemma log_buffer_size (s : TraceState) (e : LogInput) :
    (LogMethodTraceEvent s e).buffer_size = s.buffer_size := by
  unfold LogMethodTraceEvent
  split <;> rfl

lemma log_start_time (s : TraceState) (e : LogInput) :
    (LogMethodTraceEvent s e).start_time = s.start_time := by
  unfold LogMethodTraceEvent
  split <;> rfl

lemma log_cur_mono (s : TraceState) (e : LogInput) :
    s.cur_offset ≤ (LogMethodTraceEvent s e).cur_offset := by
  unfold LogMethodTraceEvent
  split
  · exact Nat.le_refl _
  · exact Nat.le_add_right _ _

lemma log_overflow_mono (s : TraceState) (e : LogInput)
    (h : s.overflow = true) : (LogMethodTraceEvent s e).overflow = true := by
  unfold LogMethodTraceEvent
  split
  · rfl
  · exact h

lemma log_cursor_le (s : TraceState) (e : LogInput)
    (h : s.cur_offset ≤ s.buffer_size) :
    (LogMethodTraceEvent s e).cur_offset ≤ (LogMethodTraceEvent s e).buffer_size := by
  unfold LogMethodTraceEvent
  split
  · simpa using h
  · next hg => simpa using Nat.le_of_not_lt hg

lemma runLogs_nil (s : TraceState) : runLogs s [] = s := rfl

lemma runLogs_cons (s : TraceState) (e : LogInput) (evs : List LogInput) :
    runLogs s (e :: evs) = runLogs (LogMethodTraceEvent s e) evs := rfl

lemma runLogs_clock_source (s : TraceState) (evs : List LogInput) :
    (runLogs s evs).clock_source = s.clock_source := by
  induction evs generalizing s with
  | nil => rfl
  | cons e evs ih => rw [runLogs_cons, ih, log_clock_source]

lemma runLogs_buffer_size (s : TraceState) (evs : List LogInput) :
    (runLogs s evs).buffer_size = s.buffer_size := by
  induction evs generalizing s with
  | nil => rfl
  | cons e evs ih => rw [runLogs_cons, ih, log_buffer_size]

lemma runLogs_cur_mono (s : TraceState) (evs : List LogInput) :
    s.cur_offset ≤ (runLogs s evs).cur_offset := by
  induction evs generalizing s with
  | nil => exact Nat.le_refl _
  | cons e evs ih =>
      rw [runLogs_cons]
      exact Nat.le_trans (log_cur_mono s e) (ih _)

lemma runLogs_overflow_mono (s : TraceState) (evs : List LogInput)
    (h : s.overflow = true) : (runLogs s evs).overflow = true := by
  induction evs generalizing s with
  | nil => exact h
  | cons e evs ih => exact ih _ (log_overflow_mono s e h)

/-- The final cursor is the initial cursor plus the record size times the
number of successful reservations. -/
lemma runLogs_cursor_spec (s : TraceState) (evs : List LogInput) :
    (runLogs s evs).cur_offset =
      s.cur_offset + GetRecordSize s.clock_source * countSuccess s evs := by
  induction evs generalizing s with
  | nil => simp [runLogs_nil, countSuccess]
  | cons e evs ih =>
      rw [runLogs_cons, ih, log_clock_source, countSuccess]
      by_cases hok : reserveOk s = true
      · have hok' : s.cur_offset + GetRecordSize s.clock_source ≤ s.buffer_size := by
          simpa [reserveOk] using hok
        rw [hok, if_pos rfl, (log_succ_fields s e hok').1, Nat.mul_add, Nat.mul_one]
        omega
      · have hfail : s.buffer_size < s.cur_offset + GetRecordSize s.clock_source := by
          simp only [reserveOk, decide_eq_true_eq] at hok
          omega
        rw [Bool.not_eq_true] at hok
        rw [hok, if_neg (by simp), log_fail s e hfail]
        simp

lemma runLogs_cursor_le (s : TraceState) (evs : List LogInput)
    (h : s.cur_offset ≤ s.buffer_size) :
    (runLogs s evs).cur_offset ≤ (runLogs s evs).buffer_size := by
  induction evs generalizing s with
  | nil => simpa [runLogs_nil] using h
  | cons e evs ih =>
      rw [runLogs_cons]
      apply ih
      exact log_cursor_le s e h

/-- C2: for every method reference whose low 2 bits are zero and every action in
{0,1,2}, decoding the packed value recovers the method and the action, and the
`DCHECK_EQ(method, DecodeTraceMethodId(tmid))` assertion at encode time holds. -/
theorem encode_decode_trace_method_and_action (m a : Nat) (hm : m < 2 ^ 32)
    (h4 : m % 4 = 0) (ha : a ≤ 2) :
    DecodeTraceMethodId (EncodeTraceMethodAndAction m a) = m ∧
    DecodeTraceAction (EncodeTraceMethodAndAction m a) = a ∧
    m = DecodeTraceMethodId (EncodeTraceMethodAndAction m a) := by
  have ha4 : a < 4 := by omega
  have hadd : EncodeTraceMethodAndAction m a = m + a := or_eq_add_of_aligned h4 ha4
  have hmethod : DecodeTraceMethodId (EncodeTraceMethodAndAction m a) = m := by
    rw [hadd, DecodeTraceMethodId]
    show (m + a) &&& (2 ^ 32 - 1 - 3) = m
    have : (2 : Nat) ^ 32 - 1 - 3 = 2 ^ 32 - 4 := by norm_num
    rw [this]
    exact and_mask_of_aligned hm h4 ha4
  refine ⟨hmethod, ?_, hmethod.symm⟩
  rw [hadd, DecodeTraceAction]
  show (m + a) &&& 3 = a
  have h3 : (3 : Nat) = 2 ^ 2 - 1 := by norm_num
  rw [h3, Nat.and_pow_two_sub_one_eq_mod]
  omega

/-- Witness for C2 at the method pointer `0x10002000` and the unwind action. -/
theorem encode_decode_trace_method_and_action_witness :
    DecodeTraceMethodId (EncodeTraceMethodAndAction 0x10002000 2) = 0x10002000 ∧
    DecodeTraceAction (EncodeTraceMethodAndAction 0x10002000 2) = 2 ∧
    (0x10002000 : Nat) = DecodeTraceMethodId (EncodeTraceMethodAndAction 0x10002000 2) :=
  encode_decode_trace_method_and_action 0x10002000 2 (by norm_num) (by norm_num)
    (by norm_num)

/-- C5: the constructor writes the 32-byte header as: little-endian magic
`0x574F4C53` at offset 0, the version (2 single-clock, 3 dual) at offset 4, the
value 32 at offset 6, the start wall time in microseconds at offset 8, for
version 3 the record size at offset 16, and every remaining byte below offset
32 is zero. -/
theorem trace_ctor_header (clock_source : ProfilerClockSource) (st : Nat)
    (hst : st < 2 ^ 64) :
    parse4LE (TraceCtorBuf clock_source st) 0 = 0x574F4C53 ∧
    parse2LE (TraceCtorBuf clock_source st) 4 = GetTraceVersion clock_source ∧
    (GetTraceVersion clock_source =
      if clock_source = ProfilerClockSource.dual then 3 else 2) ∧
    parse2LE (TraceCtorBuf clock_source st) 6 = 32 ∧
    parse8LE (TraceCtorBuf clock_source st) 8 = st ∧
    (3 ≤ GetTraceVersion clock_source →
      parse2LE (TraceCtorBuf clock_source st) 16 = GetRecordSize clock_source) ∧
    (∀ i, (if 3 ≤ GetTraceVersion clock_source then 18 else 16) ≤ i → i < 32 →
      TraceCtorBuf clock_source st i = 0) := by
  have hmagic : kTraceMagicValue % 2 ^ 32 = 0x574F4C53 := by decide
  cases clock_source
  case wall =>
    rw [GetTraceVersion_wall, GetRecordSize_wall, TraceCtorBuf_wall]
    refine ⟨?_, ?_, by decide, ?_, ?_, by omega, ?_⟩
    · rw [parse4LE_Append8LE_out _ _ _ _ (by omega),
        parse4LE_Append2LE_out _ _ _ _ (by omega),
        parse4LE_Append2LE_out _ _ _ _ (by omega), parse4LE_Append4LE, hmagic]
    · rw [parse2LE_Append8LE_out _ _ _ _ (by omega),
        parse2LE_Append2LE_out _ _ _ _ (by omega), parse2LE_Append2LE]
      decide
    · rw [parse2LE_Append8LE_out _ _ _ _ (by omega), parse2LE_Append2LE]
      decide
    · rw [parse8LE_Append8LE]; omega
    · intro i h1 h2
      rw [if_neg (by omega)] at h1
      rw [Append8LE_out _ _ _ _ (by omega), Append2LE_out _ _ _ _ (by omega),
        Append2LE_out _ _ _ _ (by omega), Append4LE_out _ _ _ _ (by omega)]
  case threadCpu =>
    rw [GetTraceVersion_threadCpu, GetRecordSize_threadCpu,
      TraceCtorBuf_threadCpu]
    refine ⟨?_, ?_, by decide, ?_, ?_, by omega, ?_⟩
    · rw [parse4LE_Append8LE_out _ _ _ _ (by omega),
        parse4LE_Append2LE_out _ _ _ _ (by omega),
        parse4LE_Append2LE_out _ _ _ _ (by omega), parse4LE_Append4LE, hmagic]
    · rw [parse2LE_Append8LE_out _ _ _ _ (by omega),
        parse2LE_Append2LE_out _ _ _ _ (by omega), parse2LE_Append2LE]
      decide
    · rw [parse2LE_Append8LE_out _ _ _ _ (by omega), parse2LE_Append2LE]
      decide
    · rw [parse8LE_Append8LE]; omega
    · intro i h1 h2
      rw [if_neg (by omega)] at h1
      rw [Append8LE_out _ _ _ _ (by omega), Append2LE_out _ _ _ _ (by omega),
        Append2LE_out _ _ _ _ (by omega), Append4LE_out _ _ _ _ (by omega)]
  case dual =>
    rw [GetTraceVersion_dual, GetRecordSize_dual, TraceCtorBuf_dual]
    refine ⟨?_, ?_, by decide, ?_, ?_, fun _ => ?_, ?_⟩
    · rw [parse4LE_Append2LE_out _ _ _ _ (by omega),
        parse4LE_Append8LE_out _ _ _ _ (by omega),
        parse4LE_Append2LE_out _ _ _ _ (by omega),
        parse4LE_Append2LE_out _ _ _ _ (by omega), parse4LE_Append4LE, hmagic]
    · rw [parse2LE_Append2LE_out _ _ _ _ (by omega),
        parse2LE_Append8LE_out _ _ _ _ (by omega),
        parse2LE_Append2LE_out _ _ _ _ (by omega), parse2LE_Append2LE]
      decide
    · rw [parse2LE_Append2LE_out _ _ _ _ (by omega),
        parse2LE_Append8LE_out _ _ _ _ (by omega), parse2LE_Append2LE]
      decide
    · rw [parse8LE_Append2LE_out _ _ _ _ (by omega), parse8LE_Append8LE]; omega
    · rw [parse2LE_Append2LE]
      decide
    · intro i h1 h2
      rw [if_pos (by omega)] at h1
      rw [Append2LE_out _ _ _ _ (by omega), Append8LE_out _ _ _ _ (by omega),
        Append2LE_out _ _ _ _ (by omega), Append2LE_out _ _ _ _ (by omega),
        Append4LE_out _ _ _ _ (by omega)]

/-- Witness for C5 with a dual clock session starting at 1000000 microseconds. -/
theorem trace_ctor_header_witness :
    parse4LE (TraceCtorBuf ProfilerClockSource.dual 1000000) 0 = 0x574F4C53 ∧
    parse2LE (TraceCtorBuf ProfilerClockSource.dual 1000000) 4 =
      GetTraceVersion ProfilerClockSource.dual ∧
    (GetTraceVersion ProfilerClockSource.dual =
      if ProfilerClockSource.dual = ProfilerClockSource.dual then 3 else 2) ∧
    parse2LE (TraceCtorBuf ProfilerClockSource.dual 1000000) 6 = 32 ∧
    parse8LE (TraceCtorBuf ProfilerClockSource.dual 1000000) 8 = 1000000 ∧
    (3 ≤ GetTraceVersion ProfilerClockSource.dual →
      parse2LE (TraceCtorBuf ProfilerClockSource.dual 1000000) 16 =
        GetRecordSize ProfilerClockSource.dual) ∧
    (∀ i, (if 3 ≤ GetTraceVersion ProfilerClockSource.dual then 18 else 16) ≤ i →
      i < 32 → TraceCtorBuf ProfilerClockSource.dual 1000000 i = 0) :=
  trace_ctor_header ProfilerClockSource.dual 1000000 (by norm_num)

/-- A successful log call on a CPU-clock session whose thread has no stored
base records `dt_cpu = 0` and inserts the current CPU reading as the base. -/
lemma log_miss_dt (s : TraceState) (e : LogInput)
    (hok : s.cur_offset + GetRecordSize s.clock_source ≤ s.buffer_size)
    (hclk : UseThreadCpuClock s.clock_source = true)
    (hmiss : List.lookup e.thread s.thread_clock_base_map = none) :
    parse4LE (LogMethodTraceEvent s e).buf (s.cur_offset + 6) = 0 ∧
    (LogMethodTraceEvent s e).thread_clock_base_map =
      (e.thread, e.cpuNow) :: s.thread_clock_base_map := by
  unfold LogMethodTraceEvent
  rw [if_neg (by omega)]
  simp only [hclk, hmiss, if_true]
  refine ⟨?_, by trivial⟩
  cases hw : UseWallClock s.clock_source
  · rw [if_neg (by decide), parse4LE_Append4LE]
    omega
  · rw [if_pos rfl, parse4LE_Append4LE_out _ _ _ _ (by omega), parse4LE_Append4LE]
    omega

/-- A successful log call on a CPU-clock session whose thread already has a
stored base records `dt_cpu = (now - base) mod 2 ^ 32` (with 64-bit wrapping
subtraction) and leaves the map unchanged. -/
lemma log_hit_dt (s : TraceState) (e : LogInput) (base : Nat)
    (hok : s.cur_offset + GetRecordSize s.clock_source ≤ s.buffer_size)
    (hclk : UseThreadCpuClock s.clock_source = true)
    (hhit : List.lookup e.thread s.thread_clock_base_map = some base) :
    parse4LE (LogMethodTraceEvent s e).buf (s.cur_offset + 6) =
      u64sub e.cpuNow base % 2 ^ 32 ∧
    (LogMethodTraceEvent s e).thread_clock_base_map = s.thread_clock_base_map := by
  unfold LogMethodTraceEvent
  rw [if_neg (by omega)]
  simp only [hclk, hhit, if_true]
  refine ⟨?_, by trivial⟩
  cases hw : UseWallClock s.clock_source
  · rw [if_neg (by decide), parse4LE_Append4LE]
    omega
  · rw [if_pos rfl, parse4LE_Append4LE_out _ _ _ _ (by omega), parse4LE_Append4LE]
    omega

/-- C3: after construction and any sequence of log calls the cursor lies in
`[32, buffer_size]`, `(cursor - 32)` is a multiple of the record size (10
single clock, 14 dual), and the cursor never decreases at a further log call. -/
theorem log_cursor_invariant (clock_source : ProfilerClockSource)
    (buffer_size flags start_time : Nat) (evs : List LogInput)
    (hbs : 32 ≤ buffer_size) :
    32 ≤ (runLogs (TraceCtor clock_source buffer_size flags start_time) evs).cur_offset ∧
    (runLogs (TraceCtor clock_source buffer_size flags start_time) evs).cur_offset ≤
      buffer_size ∧
    ((runLogs (TraceCtor clock_source buffer_size flags start_time) evs).cur_offset
      - 32) % GetRecordSize clock_source = 0 ∧
    GetRecordSize clock_source =
      (if clock_source = ProfilerClockSource.dual then 14 else 10) ∧
    ∀ e, (runLogs (TraceCtor clock_source buffer_size flags start_time) evs).cur_offset ≤
      (LogMethodTraceEvent
        (runLogs (TraceCtor clock_source buffer_size flags start_time) evs) e).cur_offset := by
  have hcur : (TraceCtor clock_source buffer_size flags start_time).cur_offset = 32 := rfl
  have hclock : (TraceCtor clock_source buffer_size flags start_time).clock_source =
    clock_source := rfl
  refine ⟨?_, ?_, ?_, ?_, fun e => log_cur_mono _ e⟩
  · have h := runLogs_cur_mono (TraceCtor clock_source buffer_size flags start_time) evs
    rwa [hcur] at h
  · have h := runLogs_cursor_le (TraceCtor clock_source buffer_size flags start_time)
      evs (by rw [hcur]; exact hbs)
    rwa [runLogs_buffer_size] at h
  · rw [runLogs_cursor_spec, hcur, hclock, Nat.add_sub_cancel_left, Nat.mul_mod_right]
  · cases clock_source <;> simp

/-- Witness for C3: a wall-clock session with a 42-byte buffer and two logged
events. -/
theorem log_cursor_invariant_witness :
    32 ≤ (runLogs (TraceCtor ProfilerClockSource.wall 42 0 0)
      [⟨5, 8, InstrumentationEvent.kMethodEntered, 0, 0⟩,
       ⟨5, 8, InstrumentationEvent.kMethodExited, 0, 7⟩]).cur_offset ∧
    (runLogs (TraceCtor ProfilerClockSource.wall 42 0 0)
      [⟨5, 8, InstrumentationEvent.kMethodEntered, 0, 0⟩,
       ⟨5, 8, InstrumentationEvent.kMethodExited, 0, 7⟩]).cur_offset ≤ 42 ∧
    ((runLogs (TraceCtor ProfilerClockSource.wall 42 0 0)
      [⟨5, 8, InstrumentationEvent.kMethodEntered, 0, 0⟩,
       ⟨5, 8, InstrumentationEvent.kMethodExited, 0, 7⟩]).cur_offset - 32) %
      GetRecordSize ProfilerClockSource.wall = 0 ∧
    GetRecordSize ProfilerClockSource.wall =
      (if ProfilerClockSource.wall = ProfilerClockSource.dual then 14 else 10) ∧
    ∀ e, (runLogs (TraceCtor ProfilerClockSource.wall 42 0 0)
      [⟨5, 8, InstrumentationEvent.kMethodEntered, 0, 0⟩,
       ⟨5, 8, InstrumentationEvent.kMethodExited, 0, 7⟩]).cur_offset ≤
      (LogMethodTraceEvent (runLogs (TraceCtor ProfilerClockSource.wall 42 0 0)
        [⟨5, 8, InstrumentationEvent.kMethodEntered, 0, 0⟩,
         ⟨5, 8, InstrumentationEvent.kMethodExited, 0, 7⟩]) e).cur_offset :=
  log_cursor_invariant ProfilerClockSource.wall 42 0 0
    [⟨5, 8, InstrumentationEvent.kMethodEntered, 0, 0⟩,
     ⟨5, 8, InstrumentationEvent.kMethodExited, 0, 7⟩] (by norm_num)

/-- C4: a log call whose reservation would pass `buffer_size` sets `overflow`,
drops the event without advancing the cursor, `overflow` stays set forever,
`overflow` is only ever set by a failing reservation, and in the concrete
42-byte wall-clock scenario the first of two events succeeds (cursor 42) while
the second overflows leaving the cursor at 42. -/
theorem log_overflow_behavior (s : TraceState) (e : LogInput)
    (hfail : s.buffer_size < s.cur_offset + GetRecordSize s.clock_source) :
    (LogMethodTraceEvent s e).overflow = true ∧
    (LogMethodTraceEvent s e).cur_offset = s.cur_offset ∧
    (∀ evs, (runLogs (LogMethodTraceEvent s e) evs).overflow = true) ∧
    (∀ (s' : TraceState) (e' : LogInput), s'.overflow = false →
      (LogMethodTraceEvent s' e').overflow = true →
      s'.buffer_size < s'.cur_offset + GetRecordSize s'.clock_source) ∧
    (runLogs (TraceCtor ProfilerClockSource.wall 42 0 0)
      [⟨5, 8, InstrumentationEvent.kMethodEntered, 0, 0⟩]).overflow = false ∧
    (runLogs (TraceCtor ProfilerClockSource.wall 42 0 0)
      [⟨5, 8, InstrumentationEvent.kMethodEntered, 0, 0⟩]).cur_offset = 42 ∧
    (runLogs (TraceCtor ProfilerClockSource.wall 42 0 0)
      [⟨5, 8, InstrumentationEvent.kMethodEntered, 0, 0⟩,
       ⟨5, 8, InstrumentationEvent.kMethodExited, 0, 7⟩]).overflow = true ∧
    (runLogs (TraceCtor ProfilerClockSource.wall 42 0 0)
      [⟨5, 8, InstrumentationEvent.kMethodEntered, 0, 0⟩,
       ⟨5, 8, InstrumentationEvent.kMethodExited, 0, 7⟩]).cur_offset = 42 := by
  have heq := log_fail s e hfail
  refine ⟨by rw [heq], by rw [heq], ?_, ?_, by decide, by decide, by decide, by decide⟩
  · intro evs
    apply runLogs_overflow_mono
    rw [heq]
  · intro s' e' hov hset
    by_cases hg : s'.buffer_size < s'.cur_offset + GetRecordSize s'.clock_source
    · exact hg
    · exfalso
      have h2 := (log_succ_fields s' e' (by omega)).2
      rw [hset, hov] at h2
      exact absurd h2 (by decide)

/-- Witness for C4: the state reached after filling a 42-byte wall-clock
buffer with one record, where the next reservation fails. -/
theorem log_overflow_behavior_witness :
    (LogMethodTraceEvent (runLogs (TraceCtor ProfilerClockSource.wall 42 0 0)
      [⟨5, 8, InstrumentationEvent.kMethodEntered, 0, 0⟩])
      ⟨5, 8, InstrumentationEvent.kMethodExited, 0, 7⟩).overflow = true ∧
    (LogMethodTraceEvent (runLogs (TraceCtor ProfilerClockSource.wall 42 0 0)
      [⟨5, 8, InstrumentationEvent.kMethodEntered, 0, 0⟩])
      ⟨5, 8, InstrumentationEvent.kMethodExited, 0, 7⟩).cur_offset =
      (runLogs (TraceCtor ProfilerClockSource.wall 42 0 0)
        [⟨5, 8, InstrumentationEvent.kMethodEntered, 0, 0⟩]).cur_offset ∧
    (∀ evs, (runLogs (LogMethodTraceEvent
      (runLogs (TraceCtor ProfilerClockSource.wall 42 0 0)
        [⟨5, 8, InstrumentationEvent.kMethodEntered, 0, 0⟩])
      ⟨5, 8, InstrumentationEvent.kMethodExited, 0, 7⟩) evs).overflow = true) ∧
    (∀ (s' : TraceState) (e' : LogInput), s'.overflow = false →
      (LogMethodTraceEvent s' e').overflow = true →
      s'.buffer_size < s'.cur_offset + GetRecordSize s'.clock_source) ∧
    (runLogs (TraceCtor ProfilerClockSource.wall 42 0 0)
      [⟨5, 8, InstrumentationEvent.kMethodEntered, 0, 0⟩]).overflow = false ∧
    (runLogs (TraceCtor ProfilerClockSource.wall 42 0 0)
      [⟨5, 8, InstrumentationEvent.kMethodEntered, 0, 0⟩]).cur_offset = 42 ∧
    (runLogs (TraceCtor ProfilerClockSource.wall 42 0 0)
      [⟨5, 8, InstrumentationEvent.kMethodEntered, 0, 0⟩,
       ⟨5, 8, InstrumentationEvent.kMethodExited, 0, 7⟩]).overflow = true ∧
    (runLogs (TraceCtor ProfilerClockSource.wall 42 0 0)
      [⟨5, 8, InstrumentationEvent.kMethodEntered, 0, 0⟩,
       ⟨5, 8, InstrumentationEvent.kMethodExited, 0, 7⟩]).cur_offset = 42 :=
  log_overflow_behavior
    (runLogs (TraceCtor ProfilerClockSource.wall 42 0 0)
      [⟨5, 8, InstrumentationEvent.kMethodEntered, 0, 0⟩])
    ⟨5, 8, InstrumentationEvent.kMethodExited, 0, 7⟩ (by decide)

/-- C6: the preamble's `num-method-calls` value equals
`(final_offset - 32) / record_size`, which equals the number of successful
reservations, and the `data-file-overflow` line reads `true` exactly when the
overflow flag is set. -/
theorem finish_tracing_preamble (clock_source : ProfilerClockSource)
    (buffer_size flags start_time : Nat) (evs : List LogInput) :
    FinishNumRecords (runLogs (TraceCtor clock_source buffer_size flags start_time) evs) =
      countSuccess (TraceCtor clock_source buffer_size flags start_time) evs ∧
    (dataFileOverflowLine
        (runLogs (TraceCtor clock_source buffer_size flags start_time) evs) =
        "data-file-overflow=true\n" ↔
      (runLogs (TraceCtor clock_source buffer_size flags start_time) evs).overflow =
        true) := by
  constructor
  · have hr : 0 < GetRecordSize clock_source := by cases clock_source <;> decide
    unfold FinishNumRecords
    rw [runLogs_clock_source, runLogs_cursor_spec]
    have hcur : (TraceCtor clock_source buffer_size flags start_time).cur_offset =
      kTraceHeaderLength := rfl
    have hclock : (TraceCtor clock_source buffer_size flags start_time).clock_source =
      clock_source := rfl
    rw [hcur, hclock, Nat.add_sub_cancel_left]
    exact Nat.mul_div_cancel_left _ hr
  · cases hb : (runLogs (TraceCtor clock_source buffer_size flags start_time) evs).overflow
    · simp only [dataFileOverflowLine, hb]
      decide
    · simp only [dataFileOverflowLine, hb]
      decide

/-- C7: on a CPU-clock session a thread's first logged event stores the
current CPU reading as its base and records `dt_cpu = 0`; the next event on
the same thread records the current reading minus that base, truncated to 32
bits.  Concretely, CPU readings of 1000 then 1175 microseconds on a dual-clock
session record deltas 0 and 175. -/
theorem log_thread_cpu_base_deltas (s : TraceState) (e1 e2 : LogInput)
    (hclk : UseThreadCpuClock s.clock_source = true)
    (hmiss : List.lookup e1.thread s.thread_clock_base_map = none)
    (hfit : s.cur_offset + 2 * GetRecordSize s.clock_source ≤ s.buffer_size)
    (hsame : e2.thread = e1.thread)
    (hle : e1.cpuNow ≤ e2.cpuNow) (hlt : e2.cpuNow < 2 ^ 64) :
    parse4LE (LogMethodTraceEvent s e1).buf (s.cur_offset + 6) = 0 ∧
    List.lookup e1.thread (LogMethodTraceEvent s e1).thread_clock_base_map =
      some e1.cpuNow ∧
    parse4LE (LogMethodTraceEvent (LogMethodTraceEvent s e1) e2).buf
      (s.cur_offset + GetRecordSize s.clock_source + 6) =
      (e2.cpuNow - e1.cpuNow) % 2 ^ 32 ∧
    parse4LE (LogMethodTraceEvent (TraceCtor ProfilerClockSource.dual 60 0 0)
      ⟨7, 4, InstrumentationEvent.kMethodEntered, 1000, 3⟩).buf 38 = 0 ∧
    parse4LE (LogMethodTraceEvent (LogMethodTraceEvent
      (TraceCtor ProfilerClockSource.dual 60 0 0)
      ⟨7, 4, InstrumentationEvent.kMethodEntered, 1000, 3⟩)
      ⟨7, 4, InstrumentationEvent.kMethodExited, 1175, 9⟩).buf 52 = 175 := by
  have hok1 : s.cur_offset + GetRecordSize s.clock_source ≤ s.buffer_size := by
    omega
  obtain ⟨hdt1, hmap1⟩ := log_miss_dt s e1 hok1 hclk hmiss
  have hclk1 := log_clock_source s e1
  have hbs1 := log_buffer_size s e1
  have hcur1 := (log_succ_fields s e1 hok1).1
  have hlookup2 : List.lookup e2.thread
      (LogMethodTraceEvent s e1).thread_clock_base_map = some e1.cpuNow := by
    rw [hmap1, hsame]
    simp [List.lookup]
  have hok2 : (LogMethodTraceEvent s e1).cur_offset +
      GetRecordSize (LogMethodTraceEvent s e1).clock_source ≤
      (LogMethodTraceEvent s e1).buffer_size := by
    rw [hcur1, hclk1, hbs1]
    omega
  have hclk2 : UseThreadCpuClock (LogMethodTraceEvent s e1).clock_source = true := by
    rw [hclk1]
    exact hclk
  obtain ⟨hdt2, hmap2⟩ :=
    log_hit_dt (LogMethodTraceEvent s e1) e2 e1.cpuNow hok2 hclk2 hlookup2
  rw [hcur1] at hdt2
  refine ⟨hdt1, ?_, ?_, by decide, by decide⟩
  · rw [hmap1]
    simp [List.lookup]
  · rw [hdt2]
    unfold u64sub
    omega

/-- Witness for C7: the dual-clock session of the concrete scenario, thread 7,
CPU readings 1000 then 1175 microseconds. -/
theorem log_thread_cpu_base_deltas_witness :
    parse4LE (LogMethodTraceEvent (TraceCtor ProfilerClockSource.dual 60 0 0)
      ⟨7, 4, InstrumentationEvent.kMethodEntered, 1000, 3⟩).buf
      ((TraceCtor ProfilerClockSource.dual 60 0 0).cur_offset + 6) = 0 ∧
    List.lookup (7 : Nat) (LogMethodTraceEvent
      (TraceCtor ProfilerClockSource.dual 60 0 0)
      ⟨7, 4, InstrumentationEvent.kMethodEntered, 1000, 3⟩).thread_clock_base_map =
      some 1000 ∧
    parse4LE (LogMethodTraceEvent (LogMethodTraceEvent
      (TraceCtor ProfilerClockSource.dual 60 0 0)
      ⟨7, 4, InstrumentationEvent.kMethodEntered, 1000, 3⟩)
      ⟨7, 4, InstrumentationEvent.kMethodExited, 1175, 9⟩).buf
      ((TraceCtor ProfilerClockSource.dual 60 0 0).cur_offset +
        GetRecordSize (TraceCtor ProfilerClockSource.dual 60 0 0).clock_source + 6) =
      (1175 - 1000) % 2 ^ 32 ∧
    parse4LE (LogMethodTraceEvent (TraceCtor ProfilerClockSource.dual 60 0 0)
      ⟨7, 4, InstrumentationEvent.kMethodEntered, 1000, 3⟩).buf 38 = 0 ∧
    parse4LE (LogMethodTraceEvent (LogMethodTraceEvent
      (TraceCtor ProfilerClockSource.dual 60 0 0)
      ⟨7, 4, InstrumentationEvent.kMethodEntered, 1000, 3⟩)
      ⟨7, 4, InstrumentationEvent.kMethodExited, 1175, 9⟩).buf 52 = 175 :=
  log_thread_cpu_base_deltas (TraceCtor ProfilerClockSource.dual 60 0 0)
    ⟨7, 4, InstrumentationEvent.kMethodEntered, 1000, 3⟩
    ⟨7, 4, InstrumentationEvent.kMethodExited, 1175, 9⟩
    (by decide) (by decide) (by decide) (by decide) (by decide) (by decide)

/-- C10: a log call whose reservation fails changes nothing but the overflow
flag — cursor, buffer bytes and CPU-base map are untouched — and a thread
without a stored base still records `dt_cpu = 0` at its first successful
event. -/
theorem log_overflow_frame (s : TraceState) (e : LogInput)
    (hfail : s.buffer_size < s.cur_offset + GetRecordSize s.clock_source)
    (s' : TraceState) (e' : LogInput)
    (hclk : UseThreadCpuClock s'.clock_source = true)
    (hmiss : List.lookup e'.thread s'.thread_clock_base_map = none)
    (hok : s'.cur_offset + GetRecordSize s'.clock_source ≤ s'.buffer_size) :
    LogMethodTraceEvent s e = { s with overflow := true } ∧
    (LogMethodTraceEvent s e).cur_offset = s.cur_offset ∧
    (LogMethodTraceEvent s e).buf = s.buf ∧
    (LogMethodTraceEvent s e).thread_clock_base_map = s.thread_clock_base_map ∧
    parse4LE (LogMethodTraceEvent s' e').buf (s'.cur_offset + 6) = 0 := by
  have heq := log_fail s e hfail
  exact ⟨heq, by rw [heq], by rw [heq], by rw [heq],
    (log_miss_dt s' e' hok hclk hmiss).1⟩

/-- Witness for C10: a full 42-byte thread-cpu buffer whose next event is
dropped, and a fresh dual-clock session whose first event records delta 0. -/
theorem log_overflow_frame_witness :
    LogMethodTraceEvent (runLogs (TraceCtor ProfilerClockSource.threadCpu 42 0 0)
        [⟨3, 4, InstrumentationEvent.kMethodEntered, 500, 0⟩])
        ⟨3, 4, InstrumentationEvent.kMethodExited, 600, 0⟩ =
      { runLogs (TraceCtor ProfilerClockSource.threadCpu 42 0 0)
          [⟨3, 4, InstrumentationEvent.kMethodEntered, 500, 0⟩] with
        overflow := true } ∧
    (LogMethodTraceEvent (runLogs (TraceCtor ProfilerClockSource.threadCpu 42 0 0)
        [⟨3, 4, InstrumentationEvent.kMethodEntered, 500, 0⟩])
        ⟨3, 4, InstrumentationEvent.kMethodExited, 600, 0⟩).cur_offset =
      (runLogs (TraceCtor ProfilerClockSource.threadCpu 42 0 0)
        [⟨3, 4, InstrumentationEvent.kMethodEntered, 500, 0⟩]).cur_offset ∧
    (LogMethodTraceEvent (runLogs (TraceCtor ProfilerClockSource.threadCpu 42 0 0)
        [⟨3, 4, InstrumentationEvent.kMethodEntered, 500, 0⟩])
        ⟨3, 4, InstrumentationEvent.kMethodExited, 600, 0⟩).buf =
      (runLogs (TraceCtor ProfilerClockSource.threadCpu 42 0 0)
        [⟨3, 4, InstrumentationEvent.kMethodEntered, 500, 0⟩]).buf ∧
    (LogMethodTraceEvent (runLogs (TraceCtor ProfilerClockSource.threadCpu 42 0 0)
        [⟨3, 4, InstrumentationEvent.kMethodEntered, 500, 0⟩])
        ⟨3, 4, InstrumentationEvent.kMethodExited, 600, 0⟩).thread_clock_base_map =
      (runLogs (TraceCtor ProfilerClockSource.threadCpu 42 0 0)
        [⟨3, 4, InstrumentationEvent.kMethodEntered, 500, 0⟩]).thread_clock_base_map ∧
    parse4LE (LogMethodTraceEvent (TraceCtor ProfilerClockSource.dual 60 0 0)
      ⟨9, 8, InstrumentationEvent.kMethodEntered, 777, 1⟩).buf
      ((TraceCtor ProfilerClockSource.dual 60 0 0).cur_offset + 6) = 0 :=
  log_overflow_frame
    (runLogs (TraceCtor ProfilerClockSource.threadCpu 42 0 0)
      [⟨3, 4, InstrumentationEvent.kMethodEntered, 500, 0⟩])
    ⟨3, 4, InstrumentationEvent.kMethodExited, 600, 0⟩ (by decide)
    (TraceCtor ProfilerClockSource.dual 60 0 0)
    ⟨9, 8, InstrumentationEvent.kMethodEntered, 777, 1⟩
    (by decide) (by decide) (by decide)

/-- C1 (failing input): with `flags = 2`, whose `count_allocs` bit is clear
(`2 &&& kTraceCountAllocs = 0`), `Trace::Start` still enables allocation
statistics, because line 239 tests `(flags && kTraceCountAllocs) != 0` with a
logical instead of a bitwise and — true for every nonzero `flags`.  The same
file tests `(flags_ & kTraceCountAllocs) != 0` bitwise in `FinishTracing`. -/
theorem start_count_allocs_failing_input :
    (Trace_Start ⟨none, 0, false⟩ ProfilerClockSource.dual 4096 2 0 true
      false).stats_enabled = true ∧
    2 &&& kTraceCountAllocs = 0 := by
  decide

/-- C8: starting while a session is active leaves everything unchanged: the
first `Start` installs the session and registers one listener, and any second
`Start` call returns the state untouched, so the listener count rises by
exactly 1 across both calls. -/
theorem start_while_active (g : RuntimeState) (clock_source : ProfilerClockSource)
    (buffer_size flags start_time : Nat) (direct_to_ddms : Bool)
    (hnone : g.the_trace = none) :
    (Trace_Start g clock_source buffer_size flags start_time true
      direct_to_ddms).listener_count = g.listener_count + 1 ∧
    (Trace_Start g clock_source buffer_size flags start_time true
      direct_to_ddms).the_trace =
      some (TraceCtor clock_source buffer_size flags start_time) ∧
    ∀ (c2 : ProfilerClockSource) (b2 f2 t2 : Nat) (ok2 dd2 : Bool),
      Trace_Start (Trace_Start g clock_source buffer_size flags start_time true
        direct_to_ddms) c2 b2 f2 t2 ok2 dd2 =
        Trace_Start g clock_source buffer_size flags start_time true
          direct_to_ddms := by
  have h1 : Trace_Start g clock_source buffer_size flags start_time true
      direct_to_ddms =
      { the_trace := some (TraceCtor clock_source buffer_size flags start_time)
        listener_count := g.listener_count + 1
        stats_enabled :=
          if flags ≠ 0 ∧ kTraceCountAllocs ≠ 0 then true else g.stats_enabled } := by
    unfold Trace_Start
    rw [hnone]
    simp
  refine ⟨by rw [h1], by rw [h1], ?_⟩
  intro c2 b2 f2 t2 ok2 dd2
  rw [h1]
  rfl

/-- Witness for C8: a runtime with no active trace and 5 registered listeners. -/
theorem start_while_active_witness :
    (Trace_Start ⟨none, 5, false⟩ ProfilerClockSource.wall 4096 0 0 true
      false).listener_count = 5 + 1 ∧
    (Trace_Start ⟨none, 5, false⟩ ProfilerClockSource.wall 4096 0 0 true
      false).the_trace = some (TraceCtor ProfilerClockSource.wall 4096 0 0) ∧
    ∀ (c2 : ProfilerClockSource) (b2 f2 t2 : Nat) (ok2 dd2 : Bool),
      Trace_Start (Trace_Start ⟨none, 5, false⟩ ProfilerClockSource.wall 4096 0 0
        true false) c2 b2 f2 t2 ok2 dd2 =
        Trace_Start ⟨none, 5, false⟩ ProfilerClockSource.wall 4096 0 0 true false :=
  start_while_active ⟨none, 5, false⟩ ProfilerClockSource.wall 4096 0 0 false rfl

lemma getClockOverheadLoopCalls_eq (n : Nat) :
    GetClockOverheadLoopCalls n = 8 * n := by
  induction n with
  | zero => rfl
  | succ n ih =>
      rw [GetClockOverheadLoopCalls, ih]
      omega

/-- C9: the calibration loop performs 4000 passes of 8 calls, 32000 sampling
iterations in total, each sampling every enabled clock once (one clock for the
single-clock sources, two for dual), and the returned overhead is the elapsed
thread-CPU microseconds divided by 32, which equals elapsed times 1000 (the
nanoseconds) divided by the 32000 iterations. -/
theorem clock_overhead_calibration (startCpu endCpu : Nat)
    (hle : startCpu ≤ endCpu) (hend : endCpu < 2 ^ 64)
    (hsmall : (endCpu - startCpu) / 32 < 2 ^ 32) :
    GetClockOverheadLoopCalls 4000 = 32000 ∧
    MeasureClockOverheadReads ProfilerClockSource.wall = 1 ∧
    MeasureClockOverheadReads ProfilerClockSource.threadCpu = 1 ∧
    MeasureClockOverheadReads ProfilerClockSource.dual = 2 ∧
    GetClockOverhead startCpu endCpu = (endCpu - startCpu) / 32 ∧
    (endCpu - startCpu) / 32 = (endCpu - startCpu) * 1000 / 32000 := by
  refine ⟨by rw [getClockOverheadLoopCalls_eq], by decide, by decide, by decide,
    ?_, by omega⟩
  unfold GetClockOverhead u64sub
  omega

/-- Witness for C9: a loop measured from 0 to 3200 microseconds of thread-CPU
time, giving 100 nanoseconds of overhead per iteration. -/
theorem clock_overhead_calibration_witness :
    GetClockOverheadLoopCalls 4000 = 32000 ∧
    MeasureClockOverheadReads ProfilerClockSource.wall = 1 ∧
    MeasureClockOverheadReads ProfilerClockSource.threadCpu = 1 ∧
    MeasureClockOverheadReads ProfilerClockSource.dual = 2 ∧
    GetClockOverhead 0 3200 = (3200 - 0) / 32 ∧
    (3200 - 0) / 32 = (3200 - 0) * 1000 / 32000 :=
  clock_overhead_calibration 0 3200 (by norm_num) (by norm_num) (by norm_num)

end art
